import Mathlib

/-!
Verification of the multi-folder workspace coordination core of the
vscode-swift extension.

The embedding below is a shallow model of two source files:

* `WorkspaceContext.ts` (the unnamed source part): the folder set, the
  focus/event-dispatch protocol (`focusFolder`, `fireEvent`,
  `addPackageFolder`, `removeWorkspaceFolder`, `focusUri`,
  `focusPackageUri`, `initialisationComplete`, `getPackageFolder`,
  `isValidWorkspaceFolder`);
* `SwiftTaskProvider.ts`: build-task resolution (`getBuildAllTask`) and
  task listing (`provideTasks`).

Modelling conventions:

* File-system paths are lists of path segments (`Path`), so `path.dirname`
  is `List.dropLast` and path containment that respects segment boundaries
  is the segment-list relation `l₁ <+: l₂`.
* The asynchronous observer dispatch of `fireEvent` is sequential in the
  source (a `for` loop awaiting each observer).  Observers are identified
  by their registration ids (`Nat`), and dispatch is recorded as a trace of
  `(observer, folder, event)` entries in registration order.  The variant
  `fireEventRun` additionally models observers that may raise.
* External collaborators (the file system behind `pathExists`, and the
  host's `vscode.workspace.getWorkspaceFolder`) are oracles in `HostEnv`.
-/

namespace VSCodeSwift

/-- A file-system path, as its list of path segments from the root. -/
abbrev Path := List String

/-- `path.dirname` on segment lists: drop the last segment. -/
def dirname (p : Path) : Path := p.dropLast

/-- Modelled from the spec: `isPathInsidePath` lives in
`utilities/utilities.ts`, which is not among the provided sources.  Per the
spec (§4.1 `findOwning`), it is path containment respecting path segment
boundaries, i.e. the candidate parent is a segment-wise ancestor of the
path.  On segment lists this is exactly the list-ancestor test. -/
def isPathInsidePath (p : Path) (parent : Path) : Bool := parent.isPrefixOf p

/-- The events of `enum FolderEvent` in `WorkspaceContext.ts`. -/
inductive FolderEvent
  | add
  | remove
  | focus
  | unfocus
  | packageUpdated
  | resolvedUpdated
deriving DecidableEq

/-- A host workspace root (`vscode.WorkspaceFolder`), identified by its uri. -/
structure WorkspaceFolder where
  uri : Path
deriving DecidableEq

/-- The slice of `FolderContext` that `WorkspaceContext` manipulates:
the folder's root path and its owning workspace root
(`FolderContext.create(folder, workspaceFolder, this)`). -/
structure FolderContext where
  folder : Path
  workspaceFolder : WorkspaceFolder
deriving DecidableEq

/-- A `vscode.Uri`: scheme plus file-system path. -/
structure Uri where
  scheme : String
  fsPath : Path
deriving DecidableEq

/-- The state of `WorkspaceContext` that the claims are about:
`folders`, `currentFolder` (with `undefined` = `none` the initial
undetermined state and `null` = `some none` the explicit null focus),
`currentDocument`, the ordered observer set, `lastFocusUri` and
`initialisationFinished`. -/
structure WorkspaceContext where
  folders : List FolderContext
  currentFolder : Option (Option FolderContext)
  currentDocument : Option Uri
  observers : List Nat
  lastFocusUri : Option Uri
  initialisationFinished : Bool
deriving DecidableEq

/-- One recorded observer invocation: which observer ran, for which folder
argument, and for which event. -/
abbrev Ev := Nat × Option FolderContext × FolderEvent

/-- `WorkspaceContext.fireEvent` (lines 766-770): dispatch one event to all
observers, sequentially and awaited in registration order.  The result is
the trace of observer invocations, in the order they are awaited. -/
def fireEvent (ctx : WorkspaceContext) (folder : Option FolderContext)
    (event : FolderEvent) : List Ev :=
  ctx.observers.map (fun o => (o, folder, event))

/-- `WorkspaceContext.fireEvent` with fallible observers: `behavior o` is
what awaiting observer `o` does.  The `for` loop awaits observers in
registration order; an exception aborts the loop and propagates to the
caller.  Returns the list of observers actually invoked together with the
propagated error, if any. -/
def fireEventRun {ε : Type} (behavior : Nat → Except ε Unit) :
    List Nat → List Nat × Option ε
  | [] => ([], none)
  | o :: rest =>
    match behavior o with
    | .error e => ([o], some e)
    | .ok _ =>
      let r := fireEventRun behavior rest
      (o :: r.1, r.2)

/-- `WorkspaceContext.focusFolder` (lines 776-792): no-op when the
requested value already equals `currentFolder` (note `undefined` never
equals a requested `FolderContext | null`); otherwise fire `unfocus` for
the previous folder when it is determined, set `currentFolder`, then fire
`focus` for the new value. -/
def focusFolder (ctx : WorkspaceContext) (folderContext : Option FolderContext) :
    WorkspaceContext × List Ev :=
  if some folderContext = ctx.currentFolder then (ctx, [])
  else
    let unfocusTrace :=
      match ctx.currentFolder with
      | none => []
      | some prev => fireEvent ctx prev FolderEvent.unfocus
    let ctx1 := { ctx with currentFolder := some folderContext }
    (ctx1, unfocusTrace ++ fireEvent ctx1 folderContext FolderEvent.focus)

/-- `WorkspaceContext.addPackageFolder` (lines 847-863): if a context with
the same root path exists, return it unchanged (no append, no event);
otherwise create the context, append it, and fire `add`. -/
def addPackageFolder (ctx : WorkspaceContext) (folder : Path)
    (workspaceFolder : WorkspaceFolder) :
    WorkspaceContext × FolderContext × List Ev :=
  match ctx.folders.find? (fun c => decide (c.folder = folder)) with
  | some existing => (ctx, existing, [])
  | none =>
    let folderContext : FolderContext := ⟨folder, workspaceFolder⟩
    let ctx1 := { ctx with folders := ctx.folders ++ [folderContext] }
    (ctx1, folderContext, fireEvent ctx1 (some folderContext) FolderEvent.add)

/-- The body of the `forEach` in `WorkspaceContext.removeWorkspaceFolder`
(lines 869-888), run to completion per folder: skip folders of other
workspace roots; if the folder is the focused one, focus `null` first;
then notify the observers in reverse registration order with `remove`.
(`folder.dispose()` touches only per-folder externals and is not part of
this state.) -/
def removeStep (workspaceFolder : WorkspaceFolder) (acc : WorkspaceContext × List Ev)
    (folder : FolderContext) : WorkspaceContext × List Ev :=
  if folder.workspaceFolder = workspaceFolder then
    let r1 :=
      if acc.1.currentFolder = some (some folder) then focusFolder acc.1 none
      else (acc.1, [])
    (r1.1,
      acc.2 ++ r1.2 ++ r1.1.observers.reverse.map (fun o => (o, some folder, FolderEvent.remove)))
  else acc

/-- `WorkspaceContext.removeWorkspaceFolder` (lines 869-888): run the
per-folder teardown over `this.folders` in their stored (registration)
order, then drop every folder of the removed workspace root from the
sequence. -/
def removeWorkspaceFolder (ctx : WorkspaceContext) (workspaceFolder : WorkspaceFolder) :
    WorkspaceContext × List Ev :=
  let r := ctx.folders.foldl (removeStep workspaceFolder) (ctx, [])
  ({ r.1 with
      folders := r.1.folders.filter (fun f => decide (f.workspaceFolder ≠ workspaceFolder)) },
    r.2)

/-- `WorkspaceContext.unfocusCurrentFolder` (lines 1101-1107): fire
`unfocus` for the current folder when determined, then set `currentFolder`
to `undefined`. -/
def unfocusCurrentFolder (ctx : WorkspaceContext) : WorkspaceContext × List Ev :=
  let t :=
    match ctx.currentFolder with
    | none => []
    | some prev => fireEvent ctx prev FolderEvent.unfocus
  ({ ctx with currentFolder := none }, t)

/-- The external collaborators of `WorkspaceContext`: the file system
behind `pathExists(folder, name)` and the host lookup
`vscode.workspace.getWorkspaceFolder`. -/
structure HostEnv where
  pathExists : Path → String → Bool
  getWorkspaceFolder : Path → Option WorkspaceFolder

/-- `WorkspaceContext.isValidWorkspaceFolder` (lines 1093-1098): the folder
is a valid root when it contains `Package.swift` or
`compile_commands.json`. -/
def isValidWorkspaceFolder (env : HostEnv) (folder : Path) : Bool :=
  env.pathExists folder "Package.swift" || env.pathExists folder "compile_commands.json"

/-- The `while` loop of `WorkspaceContext.getPackageFolder` (lines
1075-1080): step the current directory towards the workspace root one
`dirname` at a time, recording the latest (hence outermost) directory that
validates.  The `[]` arm is unreachable whenever the workspace root is an
ancestor of the starting directory, which is the only situation in which
the source loop terminates. -/
def searchLoop (env : HostEnv) (workspacePath : Path) (currentFolder : Path)
    (packagePath : Option Path) : Option Path :=
  if currentFolder = workspacePath then packagePath
  else
    match currentFolder with
    | [] => packagePath
    | a :: rest =>
      let c := (a :: rest).dropLast
      searchLoop env workspacePath c
        (if isValidWorkspaceFolder env c then some c else packagePath)
termination_by currentFolder.length
decreasing_by
  simp

/-- `WorkspaceContext.getPackageFolder` (lines 1050-1087): first look for a
registered folder containing the path; otherwise search every ancestor
directory of the path, from its containing directory up to the workspace
root, for a valid manifest root, keeping the outermost hit. -/
def getPackageFolder (ctx : WorkspaceContext) (env : HostEnv) (url : Path) :
    Option (FolderContext ⊕ Path) :=
  match ctx.folders.find? (fun c => isPathInsidePath url c.folder) with
  | some folder => some (Sum.inl folder)
  | none =>
    match env.getWorkspaceFolder url with
    | none => none
    | some workspaceFolder =>
      let workspacePath := workspaceFolder.uri
      let currentFolder := dirname url
      let packagePath : Option Path :=
        if isValidWorkspaceFolder env currentFolder then some currentFolder else none
      match searchLoop env workspacePath currentFolder packagePath with
      | some p => some (Sum.inr p)
      | none => none

/-- `WorkspaceContext.focusPackageUri` (lines 984-1011): focus an already
registered folder (clearing `lastFocusUri`); for an undiscovered package
directory, defer while initialisation is still running by remembering only
this most recent uri, else unfocus, register the folder and focus it; when
nothing is found, focus `null`. -/
def focusPackageUri (env : HostEnv) (ctx : WorkspaceContext) (uri : Uri) :
    WorkspaceContext × List Ev :=
  match getPackageFolder ctx env uri.fsPath with
  | some (Sum.inl packageFolder) =>
    let r := focusFolder ctx (some packageFolder)
    ({ r.1 with lastFocusUri := none }, r.2)
  | some (Sum.inr packageFolderUri) =>
    if ctx.initialisationFinished = false then
      ({ ctx with lastFocusUri := some uri }, [])
    else
      match env.getWorkspaceFolder packageFolderUri with
      | none => (ctx, [])
      | some workspaceFolder =>
        let r1 := unfocusCurrentFolder ctx
        let r2 := addPackageFolder r1.1 packageFolderUri workspaceFolder
        let r3 := focusFolder r2.1 (some r2.2.1)
        (r3.1, r1.2 ++ r2.2.2 ++ r3.2)
  | none => focusFolder ctx none

/-- `WorkspaceContext.focusUri` (lines 975-981): record the current
document; only uris with the `file` scheme reach `focusPackageUri`. -/
def focusUri (env : HostEnv) (ctx : WorkspaceContext) (uri : Option Uri) :
    WorkspaceContext × List Ev :=
  let ctx1 := { ctx with currentDocument := uri }
  match uri with
  | some u => if u.scheme = "file" then focusPackageUri env ctx1 u else (ctx1, [])
  | none => (ctx1, [])

/-- `WorkspaceContext.initialisationComplete` (lines 1021-1027): mark
initialisation finished; if a focus uri was remembered, resolve it through
`focusUri` and clear it. -/
def initialisationComplete (env : HostEnv) (ctx : WorkspaceContext) :
    WorkspaceContext × List Ev :=
  let ctx1 := { ctx with initialisationFinished := true }
  match ctx1.lastFocusUri with
  | none => (ctx1, [])
  | some u =>
    let r := focusUri env ctx1 (some u)
    ({ r.1 with lastFocusUri := none }, r.2)

/-- One folder-set operation, for stating the duplicate-roots invariant
over arbitrary operation sequences. -/
inductive FolderOp
  | add (folder : Path) (workspaceFolder : WorkspaceFolder)
  | remove (workspaceFolder : WorkspaceFolder)

/-- Apply one folder-set operation to the context state. -/
def applyOp (ctx : WorkspaceContext) : FolderOp → WorkspaceContext
  | .add f w => (addPackageFolder ctx f w).1
  | .remove w => (removeWorkspaceFolder ctx w).1

/-- Apply a sequence of folder-set operations. -/
def applyOps (ctx : WorkspaceContext) (ops : List FolderOp) : WorkspaceContext :=
  ops.foldl applyOp ctx

/-- The registered root paths, in registration order. -/
def folderRoots (ctx : WorkspaceContext) : List Path :=
  ctx.folders.map FolderContext.folder

/-! ### Task model (`SwiftTaskProvider.ts`) -/

/-- The identity of a `vscode.TaskGroup` constant. -/
inductive TaskGroupId
  | build
  | clean
  | rebuild
  | test
deriving DecidableEq

/-- A `vscode.TaskGroup` value: its id plus its optional `isDefault`
marker.  `vscode.TaskGroup.Build` is the constant with id `build` and no
`isDefault` marker; the identity comparison
`activeOperation.task.group !== vscode.TaskGroup.Build` in the source is
modelled as structural inequality with that constant. -/
structure TaskGroup where
  id : TaskGroupId
  isDefault : Option Bool
deriving DecidableEq

/-- The `vscode.TaskGroup.Build` constant. -/
def taskGroupBuild : TaskGroup := ⟨TaskGroupId.build, none⟩

/-- The `cwd` stored in a task execution's options: either the literal
`workspaceFolder` substitution placeholder string or a concrete path. -/
inductive Cwd
  | placeholder
  | path (p : Path)
deriving DecidableEq

/-- The surface of a `vscode.Task` that `SwiftTaskProvider.ts` reads or
writes: `source`, `scope`, `name`, `group`, the execution's optional
`cwd`, the human-readable `detail`, and whether the execution is the
throwing `CustomExecution` of the disabled placeholder.  Argument vectors
and environment overlays are built from the external toolchain and
configuration collaborators and play no part in the claims. -/
structure VSTask where
  source : String
  scope : Option WorkspaceFolder
  name : String
  group : Option TaskGroup
  cwd : Option Cwd
  detail : Option String
  customDisabled : Bool
deriving DecidableEq

/-- The slice of `FolderContext` that `SwiftTaskProvider.ts` reads:
root path, owning workspace root, display-relative path, whether a package
was found, the executable products, and the queue's active operation. -/
structure Operation where
  task : VSTask
deriving DecidableEq

/-- Folder state as consumed by the task provider. -/
structure TaskFolderContext where
  folder : Path
  workspaceFolder : WorkspaceFolder
  relativePath : String
  foundPackage : Bool
  executableProducts : List String
  activeOperation : Option Operation
deriving DecidableEq

/-- `SwiftTaskProvider.buildAllName` with the relative-path suffix of
`getBuildAllTask`/`createBuildAllTask`. -/
def buildAllTaskName (fc : TaskFolderContext) : String :=
  if fc.relativePath.length > 0 then "Build All" ++ " (" ++ fc.relativePath ++ ")"
  else "Build All"

/-- The cwd defaulting of `getBuildAllTask` (lines 144-147): an unset cwd
or the literal `workspaceFolder` placeholder resolves to the owning
workspace root. -/
def effectiveCwd : Option Cwd → Path → Path
  | none, d => d
  | some Cwd.placeholder, d => d
  | some (Cwd.path p), _ => p

/-- The filter of `getBuildAllTask` (lines 138-149): user-declared
workspace tasks scoped to this folder's workspace root whose resolved cwd
is exactly the folder root. -/
def wsTaskMatches (fc : TaskFolderContext) (t : VSTask) : Bool :=
  decide (t.source = "Workspace" ∧ t.scope = some fc.workspaceFolder ∧
    effectiveCwd t.cwd fc.workspaceFolder.uri = fc.folder)

/-- The first-precedence test of `getBuildAllTask` (lines 152-154): the
task's group has the build id and is marked default. -/
def isDefaultBuildTask (t : VSTask) : Bool :=
  match t.group with
  | some g => decide (g.id = TaskGroupId.build ∧ g.isDefault = some true)
  | none => false

/-- The third-precedence test of `getBuildAllTask` (lines 164-171): a
previously generated task of the `swift` task type whose name and working
directory match the folder. -/
def swiftGenMatches (fc : TaskFolderContext) (t : VSTask) : Bool :=
  decide (t.name = buildAllTaskName fc ∧ t.cwd = some (Cwd.path fc.folder) ∧
    t.source = "swift")

/-- `getBuildAllTask` (lines 130-176).  `fetched` is the host's
`vscode.tasks.fetchTasks()` enumeration and `swiftFetched` the
`fetchTasks` restricted to the `swift` task type, both external read-only
surfaces. -/
def getBuildAllTask (fetched swiftFetched : List VSTask) (fc : TaskFolderContext) :
    Except String VSTask :=
  let workspaceTasks := fetched.filter (wsTaskMatches fc)
  match workspaceTasks.find? isDefaultBuildTask with
  | some task => Except.ok task
  | none =>
    match workspaceTasks.find? (fun t => decide (t.name = "swift: " ++ buildAllTaskName fc)) with
    | some task => Except.ok task
    | none =>
      match swiftFetched.find? (swiftGenMatches fc) with
      | some task => Except.ok task
      | none => Except.error "Build All Task does not exist"

/-- `createBuildAllTask` (lines 95-123), restricted to the task-identity
surface: a `swift`-source task named per the folder, in the Build group,
running in the folder root.  Its argument vector comes from the external
toolchain and configuration and is not part of the modelled surface. -/
def createBuildAllTask (fc : TaskFolderContext) : VSTask :=
  { source := "swift", scope := some fc.workspaceFolder, name := buildAllTaskName fc,
    group := some taskGroupBuild, cwd := some (Cwd.path fc.folder), detail := none,
    customDisabled := false }

/-- Modelled from the spec: the callers of `getBuildAllTask` live outside
the provided sources; per spec §4.4 they treat `TaskNotFound` as
non-fatal and fall back to synthesizing a fresh build task via
`createBuildAllTask` rather than propagating the failure. -/
def getBuildAllTaskOrCreate (fetched swiftFetched : List VSTask) (fc : TaskFolderContext) :
    VSTask :=
  match getBuildAllTask fetched swiftFetched fc with
  | Except.ok t => t
  | Except.error _ => createBuildAllTask fc

/-- `createBuildTasks` (lines 181-219), restricted to the task-identity
surface: the debug and release build tasks for one executable product. -/
def createBuildTasks (product : String) (fc : TaskFolderContext) : List VSTask :=
  let suffix := if fc.relativePath.length > 0 then " (" ++ fc.relativePath ++ ")" else ""
  [ { source := "swift", scope := some fc.workspaceFolder,
      name := "Build Debug " ++ product ++ suffix, group := some taskGroupBuild,
      cwd := some (Cwd.path fc.folder), detail := none, customDisabled := false },
    { source := "swift", scope := some fc.workspaceFolder,
      name := "Build Release " ++ product ++ suffix, group := some taskGroupBuild,
      cwd := some (Cwd.path fc.folder), detail := none, customDisabled := false } ]

/-- The disabled placeholder task of `provideTasks` (lines 333-348): a
Build-group task with a throwing `CustomExecution`, named
`Build tasks disabled`, whose detail names the running operation. -/
def disabledTask (fc : TaskFolderContext) (op : Operation) : VSTask :=
  { source := "swift", scope := some fc.workspaceFolder, name := "Build tasks disabled",
    group := some taskGroupBuild, cwd := none,
    detail := some ("While " ++ op.task.name ++ " is running."),
    customDisabled := true }

/-- The real build tasks contributed by one folder (lines 352-356):
the build-all task plus debug/release tasks per executable product. -/
def folderBuildTasks (fc : TaskFolderContext) : List VSTask :=
  createBuildAllTask fc :: fc.executableProducts.flatMap (fun p => createBuildTasks p fc)

/-- The loop body of `provideTasks` (lines 321-357) for one folder:
nothing when the package was not found; the disabled placeholder when the
active operation's task group is not the Build constant; otherwise the
real build tasks. -/
def folderProvidedTasks (fc : TaskFolderContext) : List VSTask :=
  if fc.foundPackage = false then []
  else
    match fc.activeOperation with
    | some op =>
      if op.task.group ≠ some taskGroupBuild then [disabledTask fc op]
      else folderBuildTasks fc
    | none => folderBuildTasks fc

/-- `SwiftTaskProvider.provideTasks` (lines 315-359): empty when no folder
is registered, otherwise the concatenation of each folder's
contribution. -/
def provideTasks (folders : List TaskFolderContext) : List VSTask :=
  if folders.length = 0 then []
  else folders.flatMap folderProvidedTasks

/-! ### The ancestor chain examined by `getPackageFolder` -/

/-- The chain of directories from `cur` up to `workspacePath`, leaf first:
exactly the directories that the upward search of `getPackageFolder`
examines when `workspacePath` is an ancestor of `cur` (the `[[]]` arm is
unreachable in that situation). -/
def chain (workspacePath : Path) (cur : Path) : List Path :=
  if cur = workspacePath then [workspacePath]
  else
    match cur with
    | [] => [[]]
    | a :: rest => (a :: rest) :: chain workspacePath ((a :: rest).dropLast)
termination_by cur.length
decreasing_by
  simp

/-! ### Concrete fixtures used by the witnesses and counterexamples -/

def c1fc : FolderContext := ⟨["ws", "A"], ⟨["ws"]⟩⟩

def c1ctx : WorkspaceContext :=
  { folders := [c1fc], currentFolder := some (some c1fc), currentDocument := none,
    observers := [0, 1], lastFocusUri := none, initialisationFinished := true }

def c2fc : FolderContext := ⟨["ws", "A"], ⟨["ws"]⟩⟩

def c2ctxA : WorkspaceContext :=
  { folders := [c2fc], currentFolder := some (some c2fc), currentDocument := none,
    observers := [0], lastFocusUri := none, initialisationFinished := true }

def c2ctxB : WorkspaceContext :=
  { folders := [c2fc], currentFolder := none, currentDocument := none,
    observers := [0], lastFocusUri := none, initialisationFinished := true }

def c3fc : FolderContext := ⟨["ws", "pkg"], ⟨["ws"]⟩⟩

def c3ctx : WorkspaceContext :=
  { folders := [c3fc], currentFolder := none, currentDocument := none,
    observers := [0], lastFocusUri := none, initialisationFinished := true }

def c3ops : List FolderOp :=
  [FolderOp.add ["ws", "b"] ⟨["ws"]⟩, FolderOp.add ["ws", "b"] ⟨["ws"]⟩,
    FolderOp.remove ⟨["ws"]⟩]

def c4env : HostEnv :=
  ⟨fun p n => decide (n = "Package.swift" ∧ (p = ["ws", "outer"] ∨ p = ["ws", "outer", "inner"])),
    fun _ => some ⟨["ws"]⟩⟩

def c4envNone : HostEnv := ⟨fun _ _ => false, fun _ => some ⟨["ws"]⟩⟩

def c4ctx : WorkspaceContext :=
  { folders := [], currentFolder := none, currentDocument := none,
    observers := [], lastFocusUri := none, initialisationFinished := true }

def c4url : Path := ["ws", "outer", "inner", "main.swift"]

def c5fc : FolderContext := ⟨["ws", "A"], ⟨["ws"]⟩⟩

def c5ctx : WorkspaceContext :=
  { folders := [c5fc], currentFolder := some (some c5fc), currentDocument := none,
    observers := [0], lastFocusUri := none, initialisationFinished := true }

def c5env : HostEnv := ⟨fun _ _ => false, fun _ => none⟩

def c5uriOther : Uri := ⟨"untitled", []⟩

def c5uriFile : Uri := ⟨"file", ["tmp", "x.swift"]⟩

def c7env : HostEnv :=
  ⟨fun p n => decide (n = "Package.swift" ∧ p = ["ws", "pkg"]), fun _ => some ⟨["ws"]⟩⟩

def c7uri : Uri := ⟨"file", ["ws", "pkg", "main.swift"]⟩

def c7ctxA : WorkspaceContext :=
  { folders := [], currentFolder := none, currentDocument := none,
    observers := [0], lastFocusUri := none, initialisationFinished := false }

def c7ctxB : WorkspaceContext :=
  { folders := [], currentFolder := none, currentDocument := none,
    observers := [0], lastFocusUri := some c7uri, initialisationFinished := false }

def c8ws : WorkspaceFolder := ⟨["ws"]⟩

def c8fc : TaskFolderContext := ⟨["ws"], c8ws, "", true, [], none⟩

def c8t1 : VSTask :=
  { source := "Workspace", scope := some c8ws, name := "my custom build",
    group := some ⟨TaskGroupId.build, some true⟩, cwd := none, detail := none,
    customDisabled := false }

def c8t2 : VSTask :=
  { source := "Workspace", scope := some c8ws, name := "swift: Build All",
    group := none, cwd := some Cwd.placeholder, detail := none, customDisabled := false }

def c8t3 : VSTask :=
  { source := "swift", scope := some c8ws, name := "Build All",
    group := some taskGroupBuild, cwd := some (Cwd.path ["ws"]), detail := none,
    customDisabled := false }

def c9behavior : Nat → Except String Unit :=
  fun n => if n = 1 then Except.error "observer failed" else Except.ok ()

def c9behaviorOk : Nat → Except String Unit := fun _ => Except.ok ()

def c10ws : WorkspaceFolder := ⟨["ws"]⟩

def c10opResolve : Operation :=
  ⟨{ source := "swift", scope := some c10ws, name := "Resolve Package Dependencies",
      group := none, cwd := some (Cwd.path ["ws"]), detail := none, customDisabled := false }⟩

def c10opBuild : Operation :=
  ⟨{ source := "swift", scope := some c10ws, name := "Build All",
      group := some taskGroupBuild, cwd := some (Cwd.path ["ws"]), detail := none,
      customDisabled := false }⟩

def c10fcNoPackage : TaskFolderContext := ⟨["ws"], c10ws, "", false, [], none⟩

def c10fcResolving : TaskFolderContext :=
  ⟨["ws"], c10ws, "", true, ["prod"], some c10opResolve⟩

def c10fcBuilding : TaskFolderContext := ⟨["ws"], c10ws, "", true, [], some c10opBuild⟩

def c10fcIdle : TaskFolderContext := ⟨["ws"], c10ws, "", true, ["tool"], none⟩

def c10folders : List TaskFolderContext := [c10fcResolving, c10fcIdle]

/-! ## Helper lemmas -/

theorem focusFolder_state_folders (ctx : WorkspaceContext) (f : Option FolderContext) :
    (focusFolder ctx f).1.folders = ctx.folders := by
  unfold focusFolder
  split <;> rfl

theorem focusFolder_currentFolder (ctx : WorkspaceContext) (f : Option FolderContext) :
    (focusFolder ctx f).1.currentFolder = some f := by
  unfold focusFolder
  split
  · next h => exact h.symm
  · rfl

theorem focusFolder_noop (ctx : WorkspaceContext) (f : Option FolderContext)
    (h : ctx.currentFolder = some f) : focusFolder ctx f = (ctx, []) := by
  unfold focusFolder
  rw [if_pos h.symm]

theorem removeStep_state_folders (ws : WorkspaceFolder) (acc : WorkspaceContext × List Ev)
    (f : FolderContext) : (removeStep ws acc f).1.folders = acc.1.folders := by
  unfold removeStep
  split
  · split
    · simp [focusFolder_state_folders]
    · rfl
  · rfl

theorem removeFold_state_folders (ws : WorkspaceFolder) (l : List FolderContext) :
    ∀ acc : WorkspaceContext × List Ev,
      (l.foldl (removeStep ws) acc).1.folders = acc.1.folders := by
  induction l with
  | nil => intro acc; rfl
  | cons f t ih => intro acc; rw [List.foldl_cons, ih, removeStep_state_folders]

theorem removeWorkspaceFolder_folders (ctx : WorkspaceContext) (ws : WorkspaceFolder) :
    (removeWorkspaceFolder ctx ws).1.folders =
      ctx.folders.filter (fun f => decide (f.workspaceFolder ≠ ws)) := by
  unfold removeWorkspaceFolder
  simp [removeFold_state_folders]

theorem addPackageFolder_roots_nodup (ctx : WorkspaceContext) (f : Path)
    (w : WorkspaceFolder) (h : (folderRoots ctx).Nodup) :
    (folderRoots (addPackageFolder ctx f w).1).Nodup := by
  unfold addPackageFolder
  cases hf : ctx.folders.find? (fun c => decide (c.folder = f)) with
  | some t => exact h
  | none =>
    have hnot : f ∉ folderRoots ctx := by
      simp only [folderRoots, List.mem_map]
      rintro ⟨c, hc, hcf⟩
      have hne := List.find?_eq_none.mp hf c hc
      simp [hcf] at hne
    simp only [folderRoots, List.map_append, List.map_cons, List.map_nil]
    rw [List.nodup_append]
    refine ⟨h, List.nodup_singleton f, ?_⟩
    intro a ha hb
    simp only [List.mem_singleton] at hb
    subst hb
    exact hnot ha

theorem applyOp_roots_nodup (ctx : WorkspaceContext) (op : FolderOp)
    (h : (folderRoots ctx).Nodup) : (folderRoots (applyOp ctx op)).Nodup := by
  cases op with
  | add f w => exact addPackageFolder_roots_nodup ctx f w h
  | remove w =>
    simp only [applyOp, folderRoots, removeWorkspaceFolder_folders]
    exact h.sublist ((List.filter_sublist ctx.folders).map FolderContext.folder)

theorem applyOps_roots_nodup (ops : List FolderOp) :
    ∀ ctx : WorkspaceContext, (folderRoots ctx).Nodup →
      (folderRoots (applyOps ctx ops)).Nodup := by
  induction ops with
  | nil => intro ctx h; exact h
  | cons op rest ih =>
    intro ctx h
    exact ih (applyOp ctx op) (applyOp_roots_nodup ctx op h)

/-! ## Claims -/

/-- C1: for a focus transition from a determined focus state `A` to a
different requested value `B`, the `unfocus` dispatch for `A` reaches all
observers, each awaited, before the `focus` dispatch for `B` reaches any
observer: the emitted trace is the full `unfocus` block followed by the
full `focus` block. -/
theorem claim1_unfocus_completes_before_focus (ctx : WorkspaceContext)
    (A B : Option FolderContext) (h1 : ctx.currentFolder = some A) (h2 : B ≠ A) :
    (focusFolder ctx B).2 =
      ctx.observers.map (fun o => (o, A, FolderEvent.unfocus)) ++
        ctx.observers.map (fun o => (o, B, FolderEvent.focus)) := by
  unfold focusFolder
  rw [h1, if_neg (by simpa using h2)]
  simp [fireEvent]

/-- Witness for C1: focusing away from the folder `c1fc` (to `null`)
emits both unfocus notifications before any focus notification. -/
theorem claim1_witness :
    c1ctx.currentFolder = some (some c1fc) ∧ ((none : Option FolderContext) ≠ some c1fc) ∧
      (focusFolder c1ctx none).2 =
        c1ctx.observers.map (fun o => (o, some c1fc, FolderEvent.unfocus)) ++
          c1ctx.observers.map (fun o => (o, none, FolderEvent.focus)) :=
  ⟨rfl, by decide,
    claim1_unfocus_completes_before_focus c1ctx (some c1fc) none rfl (by decide)⟩

/-- C2: `setFocus` is a no-op when the requested value equals a determined
current focus; two successive `setFocus(F)` calls starting from a state
whose focus is not already `F` dispatch the focus event exactly once (the
second call emits nothing); and from the initial undetermined state any
requested value, `null` included, fires the focus dispatch. -/
theorem claim2_focus_idempotent (ctxA ctxB ctxC : WorkspaceContext)
    (FA FB FC : Option FolderContext)
    (h1 : ctxA.currentFolder = some FA)
    (h2 : ctxB.currentFolder ≠ some FB)
    (h3 : ctxC.currentFolder = none) :
    focusFolder ctxA FA = (ctxA, []) ∧
      focusFolder (focusFolder ctxB FB).1 FB = ((focusFolder ctxB FB).1, []) ∧
      (focusFolder ctxB FB).2.countP (fun e => decide (e.2.2 = FolderEvent.focus)) =
        ctxB.observers.length ∧
      (focusFolder ctxC FC).2.countP (fun e => decide (e.2.2 = FolderEvent.focus)) =
        ctxC.observers.length := by
  refine ⟨focusFolder_noop ctxA FA h1,
    focusFolder_noop _ _ (focusFolder_currentFolder ctxB FB), ?_, ?_⟩
  · unfold focusFolder
    rw [if_neg (fun h => h2 h.symm)]
    cases hc : ctxB.currentFolder with
    | none => simp [fireEvent, List.countP_map, Function.comp_def]
    | some prev => simp [fireEvent, List.countP_map, Function.comp_def]
  · unfold focusFolder
    rw [h3, if_neg (by simp)]
    simp [fireEvent, List.countP_map, Function.comp_def]

/-- Witness for C2: on `c2ctxA` (focused on `c2fc`) re-focusing `c2fc` is
a no-op; on `c2ctxB` (undetermined) focusing `c2fc` twice fires focus
once, and focusing `null` fires focus. -/
theorem claim2_witness :
    c2ctxA.currentFolder = some (some c2fc) ∧
      c2ctxB.currentFolder ≠ some (some c2fc) ∧ c2ctxB.currentFolder = none ∧
      (focusFolder c2ctxA (some c2fc) = (c2ctxA, []) ∧
        focusFolder (focusFolder c2ctxB (some c2fc)).1 (some c2fc) =
          ((focusFolder c2ctxB (some c2fc)).1, []) ∧
        (focusFolder c2ctxB (some c2fc)).2.countP
            (fun e => decide (e.2.2 = FolderEvent.focus)) = c2ctxB.observers.length ∧
        (focusFolder c2ctxB none).2.countP
            (fun e => decide (e.2.2 = FolderEvent.focus)) = c2ctxB.observers.length) :=
  ⟨rfl, by decide, rfl,
    claim2_focus_idempotent c2ctxA c2ctxB c2ctxB (some c2fc) (some c2fc) none
      rfl (by decide) rfl⟩

/-- C3: over every sequence of add/remove operations the folder sequence
never holds two contexts with the same root path; and adding a root that
is already registered returns the existing context unchanged, appends
nothing, and fires no event. -/
theorem claim3_no_duplicate_roots (ctx : WorkspaceContext) (ops : List FolderOp)
    (f : Path) (w : WorkspaceFolder)
    (h1 : (folderRoots ctx).Nodup)
    (h2 : ∃ c ∈ ctx.folders, c.folder = f) :
    (folderRoots (applyOps ctx ops)).Nodup ∧
      (addPackageFolder ctx f w).1 = ctx ∧
      (addPackageFolder ctx f w).2.2 = [] ∧
      (addPackageFolder ctx f w).2.1 ∈ ctx.folders ∧
      (addPackageFolder ctx f w).2.1.folder = f := by
  have hsome : (ctx.folders.find? (fun c => decide (c.folder = f))).isSome := by
    obtain ⟨c, hc, hcf⟩ := h2
    exact List.find?_isSome.mpr ⟨c, hc, by simp [hcf]⟩
  obtain ⟨t, ht⟩ := Option.isSome_iff_exists.mp hsome
  have htf : t.folder = f := by
    have := List.find?_some ht
    simpa using this
  have htm : t ∈ ctx.folders := List.mem_of_find?_eq_some ht
  refine ⟨applyOps_roots_nodup ops ctx h1, ?_, ?_, ?_, ?_⟩
  · unfold addPackageFolder; rw [ht]
  · unfold addPackageFolder; rw [ht]
  · unfold addPackageFolder; rw [ht]; exact htm
  · unfold addPackageFolder; rw [ht]; exact htf

/-- `getPackageFolder` reads only the `folders` component of the state. -/
theorem getPackageFolder_eq_of_folders (ctx ctx' : WorkspaceContext) (env : HostEnv)
    (url : Path) (h : ctx.folders = ctx'.folders) :
    getPackageFolder ctx env url = getPackageFolder ctx' env url := by
  unfold getPackageFolder
  rw [h]

/-- Counterexample to C5: with folder `c5fc` focused, an active-file
change to a null path leaves the focused folder in place, does not move
the focus state to the explicit null state, and fires no event at all —
in particular no unfocus for `c5fc`, contradicting the claim that
`setFocus(null)` is invoked. -/
theorem claim5_counterexample :
    (focusUri c5env c5ctx none).1.currentFolder = some (some c5fc) ∧
      (focusUri c5env c5ctx none).1.currentFolder ≠ some none ∧
      (focusUri c5env c5ctx none).2 = [] := by
  refine ⟨by decide, by decide, by decide⟩

/-- C5 (amended): when the active file changes to a null path or to a
path that is not a locally addressable file, the focus state is left
untouched — only the current document is recorded and no event fires;
`setFocus(null)` is invoked only when a file-scheme path resolves to no
package folder. -/
theorem claim5_amended_nonfile_change_keeps_focus (envA envB envC : HostEnv)
    (ctxA ctxB ctxC : WorkspaceContext) (uB uC : Uri)
    (h1 : uB.scheme ≠ "file")
    (h2 : uC.scheme = "file")
    (h3 : getPackageFolder ctxC envC uC.fsPath = none) :
    focusUri envA ctxA none = ({ ctxA with currentDocument := none }, []) ∧
      focusUri envB ctxB (some uB) = ({ ctxB with currentDocument := some uB }, []) ∧
      focusUri envC ctxC (some uC) =
        focusFolder { ctxC with currentDocument := some uC } none := by
  refine ⟨rfl, ?_, ?_⟩
  · simp [focusUri, h1]
  · have h3' : getPackageFolder { ctxC with currentDocument := some uC } envC uC.fsPath =
        none := (getPackageFolder_eq_of_folders _ ctxC envC uC.fsPath rfl).trans h3
    simp [focusUri, h2, focusPackageUri, h3']

/-- Witness for C5's amended statement, on the focused fixture `c5ctx`:
a null change and an `untitled` change keep the focus and fire nothing;
a file-scheme path owned by no package focuses `null`. -/
theorem claim5_amended_witness :
    c5uriOther.scheme ≠ "file" ∧ c5uriFile.scheme = "file" ∧
      getPackageFolder c5ctx c5env c5uriFile.fsPath = none ∧
      (focusUri c5env c5ctx none = ({ c5ctx with currentDocument := none }, []) ∧
        focusUri c5env c5ctx (some c5uriOther) =
          ({ c5ctx with currentDocument := some c5uriOther }, []) ∧
        focusUri c5env c5ctx (some c5uriFile) =
          focusFolder { c5ctx with currentDocument := some c5uriFile } none) :=
  ⟨by decide, rfl, by decide,
    claim5_amended_nonfile_change_keeps_focus c5env c5env c5env c5ctx c5ctx c5ctx
      c5uriOther c5uriFile (by decide) rfl (by decide)⟩

/-- C9: observers are invoked sequentially and awaited in registration
order; when all succeed every observer runs in order, and when one raises
the error becomes the dispatching call's own failure, the observers after
it are never invoked, and those before it all ran. -/
theorem claim9_observer_error_aborts_dispatch {ε : Type}
    (behavior behaviorOk : Nat → Except ε Unit)
    (pre post obs : List Nat) (o : Nat) (e : ε)
    (h1 : ∀ p ∈ pre, behavior p = Except.ok ())
    (h2 : behavior o = Except.error e)
    (h3 : ∀ p ∈ obs, behaviorOk p = Except.ok ()) :
    fireEventRun behavior (pre ++ o :: post) = (pre ++ [o], some e) ∧
      fireEventRun behaviorOk obs = (obs, none) := by
  constructor
  · clear h3
    induction pre with
    | nil => simp [fireEventRun, h2]
    | cons p rest ih =>
      have hp : behavior p = Except.ok () := h1 p (List.mem_cons_self p rest)
      have ih' := ih (fun x hx => h1 x (List.mem_cons_of_mem p hx))
      simp [fireEventRun, hp, ih']
  · clear h1 h2
    induction obs with
    | nil => rfl
    | cons p rest ih =>
      have hp : behaviorOk p = Except.ok () := h3 p (List.mem_cons_self p rest)
      have ih' := ih (fun x hx => h3 x (List.mem_cons_of_mem p hx))
      simp [fireEventRun, hp, ih']

/-- Witness for C9: observer `1` of `c9behavior` raises, so dispatch over
`[0, 1, 2, 3]` runs `0` then `1` and propagates the error without ever
invoking `2` or `3`; the all-ok `c9behaviorOk` dispatch runs `[4, 5]` in
order. -/
theorem claim9_witness :
    (∀ p ∈ [0], c9behavior p = Except.ok ()) ∧
      c9behavior 1 = Except.error "observer failed" ∧
      (∀ p ∈ [4, 5], c9behaviorOk p = Except.ok ()) ∧
      (fireEventRun c9behavior ([0] ++ 1 :: [2, 3]) = ([0] ++ [1], some "observer failed") ∧
        fireEventRun c9behaviorOk [4, 5] = ([4, 5], none)) :=
  ⟨by intro p hp; simp only [List.mem_singleton] at hp; subst hp; rfl, rfl,
    by intro p _; rfl,
    claim9_observer_error_aborts_dispatch c9behavior c9behaviorOk [0] [2, 3] [4, 5] 1
      "observer failed"
      (by intro p hp; simp only [List.mem_singleton] at hp; subst hp; rfl) rfl
      (by intro p _; rfl)⟩

/-- C10: listing provided tasks yields nothing when no folder is
registered; a folder whose package was not found contributes no task; the
disabled placeholder replaces a folder's real build tasks exactly when
its queue's active operation is in a task group other than Build; an
active build operation, or no active operation, yields the real build
tasks. -/
theorem claim10_disabled_placeholder_only_for_nonbuild
    (folders : List TaskFolderContext) (fc1 fc2 fc3 fc4 : TaskFolderContext)
    (op2 op3 : Operation)
    (h1 : fc1.foundPackage = false)
    (h2a : fc2.foundPackage = true) (h2b : fc2.activeOperation = some op2)
    (h2c : op2.task.group ≠ some taskGroupBuild)
    (h3a : fc3.foundPackage = true) (h3b : fc3.activeOperation = some op3)
    (h3c : op3.task.group = some taskGroupBuild)
    (h4a : fc4.foundPackage = true) (h4b : fc4.activeOperation = none)
    (h5 : folders ≠ []) :
    provideTasks [] = [] ∧
      folderProvidedTasks fc1 = [] ∧
      folderProvidedTasks fc2 = [disabledTask fc2 op2] ∧
      folderProvidedTasks fc3 = folderBuildTasks fc3 ∧
      folderProvidedTasks fc4 = folderBuildTasks fc4 ∧
      provideTasks folders = folders.flatMap folderProvidedTasks := by
  refine ⟨rfl, ?_, ?_, ?_, ?_, ?_⟩
  · simp [folderProvidedTasks, h1]
  · simp [folderProvidedTasks, h2a, h2b, h2c]
  · simp [folderProvidedTasks, h3a, h3b, h3c]
  · simp [folderProvidedTasks, h4a, h4b]
  · unfold provideTasks
    rw [if_neg (fun h0 => h5 (List.length_eq_zero.mp h0))]

/-- Witness for C10 on the concrete fixtures: the package-less folder
contributes nothing, the resolving folder contributes only the disabled
placeholder, the building and idle folders contribute their real build
tasks, and a non-empty folder list concatenates the contributions. -/
theorem claim10_witness :
    c10fcNoPackage.foundPackage = false ∧
      c10fcResolving.foundPackage = true ∧
      c10fcResolving.activeOperation = some c10opResolve ∧
      c10opResolve.task.group ≠ some taskGroupBuild ∧
      c10fcBuilding.foundPackage = true ∧
      c10fcBuilding.activeOperation = some c10opBuild ∧
      c10opBuild.task.group = some taskGroupBuild ∧
      c10fcIdle.foundPackage = true ∧ c10fcIdle.activeOperation = none ∧
      c10folders ≠ [] ∧
      (provideTasks [] = [] ∧
        folderProvidedTasks c10fcNoPackage = [] ∧
        folderProvidedTasks c10fcResolving = [disabledTask c10fcResolving c10opResolve] ∧
        folderProvidedTasks c10fcBuilding = folderBuildTasks c10fcBuilding ∧
        folderProvidedTasks c10fcIdle = folderBuildTasks c10fcIdle ∧
        provideTasks c10folders = c10folders.flatMap folderProvidedTasks) :=
  ⟨rfl, rfl, rfl, by decide, rfl, rfl, by decide, rfl, rfl, by decide,
    claim10_disabled_placeholder_only_for_nonbuild c10folders c10fcNoPackage
      c10fcResolving c10fcBuilding c10fcIdle c10opResolve c10opBuild rfl rfl rfl
      (by decide) rfl rfl (by decide) rfl rfl (by decide)⟩

/-- A nonempty path's parent directory is one of its ancestors. -/
theorem dropLast_ancestor (l : Path) (h : l ≠ []) : l.dropLast <+: l :=
  ⟨[l.getLast h], List.dropLast_append_getLast h⟩

/-- A proper ancestor of a path is an ancestor of its parent directory. -/
theorem ancestor_of_dropLast {p l : Path} (h : p <+: l) (hne : p ≠ l) :
    p <+: l.dropLast := by
  have hlt : p.length < l.length :=
    lt_of_le_of_ne h.length_le (fun he => hne (h.eq_of_length he))
  rw [List.prefix_iff_eq_take] at h ⊢
  rw [List.dropLast_eq_take, List.take_take, min_eq_left (by omega)]
  exact h

/-- Unfolding `chain` at the workspace root. -/
theorem chain_self (ws : Path) : chain ws ws = [ws] := by
  unfold chain
  rw [if_pos rfl]

/-- Unfolding `chain` one directory below the workspace root. -/
theorem chain_cons (ws : Path) (a : String) (rest : List String) (hc : a :: rest ≠ ws) :
    chain ws (a :: rest) = (a :: rest) :: chain ws ((a :: rest).dropLast) := by
  conv_lhs => unfold chain
  rw [if_neg hc]

/-- The chain always starts at the directory the search starts from. -/
theorem chain_head (ws c : Path) (h : ws <+: c) : chain ws c = c :: (chain ws c).tail := by
  by_cases hc : c = ws
  · subst hc
    rw [chain_self]
    rfl
  · have hne : c ≠ [] := fun h0 => hc (h0.trans (List.prefix_nil.mp (h0 ▸ h)).symm)
    obtain ⟨a, rest, rfl⟩ := List.exists_cons_of_ne_nil hne
    rw [chain_cons ws a rest hc]
    rfl

/-- Membership in the ancestor chain is exactly being between the
workspace root and the starting directory. -/
theorem chain_mem_aux (ws : Path) :
    ∀ (n : Nat) (cur : Path), cur.length ≤ n → ws <+: cur →
      ∀ p : Path, p ∈ chain ws cur ↔ (ws <+: p ∧ p <+: cur) := by
  intro n
  induction n with
  | zero =>
    intro cur hlen hws p
    have hcur : cur = [] := List.length_eq_zero.mp (Nat.le_zero.mp hlen)
    subst hcur
    have hws0 : ws = [] := List.prefix_nil.mp hws
    subst hws0
    rw [chain_self]
    simp only [List.mem_singleton]
    constructor
    · rintro rfl
      exact ⟨List.prefix_rfl, List.prefix_rfl⟩
    · rintro ⟨h1, h2⟩
      exact List.prefix_nil.mp h2
  | succ n ih =>
    intro cur hlen hws p
    by_cases hc : cur = ws
    · subst hc
      rw [chain_self]
      simp only [List.mem_singleton]
      constructor
      · rintro rfl
        exact ⟨List.prefix_rfl, List.prefix_rfl⟩
      · rintro ⟨h1, h2⟩
        exact h2.eq_of_length (Nat.le_antisymm h2.length_le h1.length_le)
    · have hne : cur ≠ [] := by
        rintro rfl
        exact hc (List.prefix_nil.mp hws).symm
      obtain ⟨a, rest, rfl⟩ := List.exists_cons_of_ne_nil hne
      have hwsd : ws <+: (a :: rest).dropLast :=
        ancestor_of_dropLast hws (fun h0 => hc h0.symm)
      have hlend : ((a :: rest).dropLast).length ≤ n := by
        simp only [List.length_dropLast, List.length_cons] at hlen ⊢
        omega
      rw [chain_cons ws a rest hc]
      simp only [List.mem_cons]
      rw [ih ((a :: rest).dropLast) hlend hwsd p]
      constructor
      · rintro (rfl | ⟨hw, hp2⟩)
        · exact ⟨hws, List.prefix_rfl⟩
        · exact ⟨hw, hp2.trans (dropLast_ancestor (a :: rest) (List.cons_ne_nil a rest))⟩
      · rintro ⟨hw, hp2⟩
        by_cases hpc : p = a :: rest
        · exact Or.inl hpc
        · exact Or.inr ⟨hw, ancestor_of_dropLast hp2 hpc⟩

/-- Wrapper of `chain_mem_aux` at the natural fuel. -/
theorem chain_mem (ws cur : Path) (h : ws <+: cur) (p : Path) :
    p ∈ chain ws cur ↔ (ws <+: p ∧ p <+: cur) :=
  chain_mem_aux ws cur.length cur le_rfl h p

/-- Along the chain, later entries (closer to the workspace root) are
ancestors of earlier ones. -/
theorem chain_pairwise_aux (ws : Path) :
    ∀ (n : Nat) (cur : Path), cur.length ≤ n → ws <+: cur →
      (chain ws cur).Pairwise (fun x y => y <+: x) := by
  intro n
  induction n with
  | zero =>
    intro cur hlen hws
    have hcur : cur = [] := List.length_eq_zero.mp (Nat.le_zero.mp hlen)
    subst hcur
    have hws0 : ws = [] := List.prefix_nil.mp hws
    subst hws0
    rw [chain_self]
    simp
  | succ n ih =>
    intro cur hlen hws
    by_cases hc : cur = ws
    · subst hc
      rw [chain_self]
      simp
    · have hne : cur ≠ [] := by
        rintro rfl
        exact hc (List.prefix_nil.mp hws).symm
      obtain ⟨a, rest, rfl⟩ := List.exists_cons_of_ne_nil hne
      have hwsd : ws <+: (a :: rest).dropLast :=
        ancestor_of_dropLast hws (fun h0 => hc h0.symm)
      have hlend : ((a :: rest).dropLast).length ≤ n := by
        simp only [List.length_dropLast, List.length_cons] at hlen ⊢
        omega
      rw [chain_cons ws a rest hc, List.pairwise_cons]
      refine ⟨?_, ih ((a :: rest).dropLast) hlend hwsd⟩
      intro b hb
      have hm := (chain_mem_aux ws n ((a :: rest).dropLast) hlend hwsd b).mp hb
      exact hm.2.trans (dropLast_ancestor (a :: rest) (List.cons_ne_nil a rest))

/-- Wrapper of `chain_pairwise_aux` at the natural fuel. -/
theorem chain_pairwise (ws cur : Path) (h : ws <+: cur) :
    (chain ws cur).Pairwise (fun x y => y <+: x) :=
  chain_pairwise_aux ws cur.length cur le_rfl h

/-- In a list whose later entries are ancestors of earlier ones, the last
entry is an ancestor of every entry. -/
theorem pairwise_getLast_ancestor :
    ∀ l : List Path, l.Pairwise (fun x y => y <+: x) →
      ∀ p : Path, l.getLast? = some p → ∀ q ∈ l, p <+: q := by
  intro l
  induction l with
  | nil =>
    intro _ p hp q hq
    simp at hq
  | cons x rest ih =>
    intro hpw p hp q hq
    cases rest with
    | nil =>
      have hx : x = p := by simpa using hp
      subst hx
      have hqx : q = x := by simpa using hq
      subst hqx
      exact List.prefix_rfl
    | cons y ys =>
      have hpl : (y :: ys).getLast? = some p := by
        simpa [List.getLast?_cons_cons] using hp
      have hpw' := (List.pairwise_cons.mp hpw).2
      have hhead := (List.pairwise_cons.mp hpw).1
      rcases List.mem_cons.mp hq with rfl | hq'
      · exact hhead p (List.mem_of_getLast?_eq_some hpl)
      · exact ih hpw' p hpl q hq'

/-- Peeling the first directory off the fold that keeps the latest
(outermost) valid hit: stated through `Option.or`. -/
theorem filter_cons_getLast_or (v : Path → Bool) (c : Path) (t : List Path)
    (init : Option Path) :
    Option.or (((c :: t).filter v).getLast?) init =
      Option.or ((t.filter v).getLast?) (if v c then some c else init) := by
  by_cases hv : v c
  · rw [List.filter_cons_of_pos hv, if_pos hv]
    cases hft : t.filter v with
    | nil => rfl
    | cons y ys =>
      rw [List.getLast?_cons_cons]
      obtain ⟨z, hz⟩ := Option.isSome_iff_exists.mp
        (List.getLast?_isSome.mpr (List.cons_ne_nil y ys))
      rw [hz]
      rfl
  · rw [List.filter_cons_of_neg hv, if_neg hv]

/-- Unfolding `searchLoop` at the workspace root: the loop exits. -/
theorem searchLoop_self (env : HostEnv) (ws : Path) (init : Option Path) :
    searchLoop env ws ws init = init := by
  unfold searchLoop
  rw [if_pos rfl]

/-- Unfolding `searchLoop` one step below the workspace root. -/
theorem searchLoop_cons (env : HostEnv) (ws : Path) (a : String) (rest : List String)
    (hc : a :: rest ≠ ws) (init : Option Path) :
    searchLoop env ws (a :: rest) init =
      searchLoop env ws ((a :: rest).dropLast)
        (if isValidWorkspaceFolder env ((a :: rest).dropLast) then
          some ((a :: rest).dropLast) else init) := by
  conv_lhs => unfold searchLoop
  rw [if_neg hc]

/-- What the upward `while` loop computes: the outermost valid directory
strictly above the start, falling back to the accumulator. -/
theorem searchLoop_eq_aux (env : HostEnv) (ws : Path) :
    ∀ (n : Nat) (cur : Path), cur.length ≤ n → ws <+: cur → ∀ init : Option Path,
      searchLoop env ws cur init =
        Option.or (((chain ws cur).tail.filter (isValidWorkspaceFolder env)).getLast?)
          init := by
  intro n
  induction n with
  | zero =>
    intro cur hlen hws init
    have hcur : cur = [] := List.length_eq_zero.mp (Nat.le_zero.mp hlen)
    subst hcur
    have hws0 : ws = [] := List.prefix_nil.mp hws
    subst hws0
    rw [searchLoop_self, chain_self]
    rfl
  | succ n ih =>
    intro cur hlen hws init
    by_cases hc : cur = ws
    · subst hc
      rw [searchLoop_self, chain_self]
      rfl
    · have hne : cur ≠ [] := by
        rintro rfl
        exact hc (List.prefix_nil.mp hws).symm
      obtain ⟨a, rest, rfl⟩ := List.exists_cons_of_ne_nil hne
      have hwsd : ws <+: (a :: rest).dropLast :=
        ancestor_of_dropLast hws (fun h0 => hc h0.symm)
      have hlend : ((a :: rest).dropLast).length ≤ n := by
        simp only [List.length_dropLast, List.length_cons] at hlen ⊢
        omega
      rw [searchLoop_cons env ws a rest hc init,
        ih ((a :: rest).dropLast) hlend hwsd, chain_cons ws a rest hc,
        List.tail_cons, chain_head ws ((a :: rest).dropLast) hwsd,
        filter_cons_getLast_or]
      simp only [List.tail_cons]

/-- The search over the whole chain (start directory included) returns
the outermost valid directory on it, if any. -/
theorem searchLoop_chain (env : HostEnv) (ws cur : Path) (h : ws <+: cur) :
    searchLoop env ws cur
        (if isValidWorkspaceFolder env cur then some cur else none) =
      ((chain ws cur).filter (isValidWorkspaceFolder env)).getLast? := by
  calc
    searchLoop env ws cur
        (if isValidWorkspaceFolder env cur then some cur else none) =
        Option.or (((chain ws cur).tail.filter (isValidWorkspaceFolder env)).getLast?)
          (if isValidWorkspaceFolder env cur then some cur else none) :=
      searchLoop_eq_aux env ws cur.length cur le_rfl h _
    _ = Option.or (((cur :: (chain ws cur).tail).filter
          (isValidWorkspaceFolder env)).getLast?) none :=
      (filter_cons_getLast_or (isValidWorkspaceFolder env) cur (chain ws cur).tail
        none).symm
    _ = ((cur :: (chain ws cur).tail).filter (isValidWorkspaceFolder env)).getLast? :=
      Option.or_none
    _ = ((chain ws cur).filter (isValidWorkspaceFolder env)).getLast? := by
      rw [← chain_head ws cur h]

/-- When no registered folder contains the path, `getPackageFolder`
returns the outermost valid directory of the ancestor chain. -/
theorem getPackageFolder_search (ctx : WorkspaceContext) (env : HostEnv) (url : Path)
    (ws : WorkspaceFolder)
    (h1 : ∀ c ∈ ctx.folders, isPathInsidePath url c.folder = false)
    (h2 : env.getWorkspaceFolder url = some ws)
    (h3 : ws.uri <+: dirname url) :
    getPackageFolder ctx env url =
      (((chain ws.uri (dirname url)).filter (isValidWorkspaceFolder env)).getLast?).map
        Sum.inr := by
  have hfind : ctx.folders.find? (fun c => isPathInsidePath url c.folder) = none :=
    List.find?_eq_none.mpr (fun c hc => by simp [h1 c hc])
  unfold getPackageFolder
  simp only [hfind, h2]
  rw [searchLoop_chain env ws.uri (dirname url) h3]
  cases hx : ((chain ws.uri (dirname url)).filter (isValidWorkspaceFolder env)).getLast? with
  | none => rfl
  | some p => rfl

/-- C4: resolving a file owned by no registered folder searches the
directories from the file's parent up to the workspace root and returns
the outermost one that validates as a manifest root — any other valid
directory on the chain lies below it — and returns nothing when no
directory on the chain validates. -/
theorem claim4_outermost_manifest_wins
    (ctx1 : WorkspaceContext) (env1 : HostEnv) (url1 : Path) (ws1 : WorkspaceFolder)
    (q1 : Path) (ctx2 : WorkspaceContext) (env2 : HostEnv) (url2 : Path)
    (ws2 : WorkspaceFolder)
    (h11 : ∀ c ∈ ctx1.folders, isPathInsidePath url1 c.folder = false)
    (h12 : env1.getWorkspaceFolder url1 = some ws1)
    (h13 : ws1.uri <+: dirname url1)
    (h14 : ws1.uri <+: q1)
    (h15 : q1 <+: dirname url1)
    (h16 : isValidWorkspaceFolder env1 q1 = true)
    (h21 : ∀ c ∈ ctx2.folders, isPathInsidePath url2 c.folder = false)
    (h22 : env2.getWorkspaceFolder url2 = some ws2)
    (h23 : ws2.uri <+: dirname url2)
    (h24 : ∀ q : Path, ws2.uri <+: q → q <+: dirname url2 →
      isValidWorkspaceFolder env2 q = false) :
    (∃ p : Path, getPackageFolder ctx1 env1 url1 = some (Sum.inr p) ∧
        isValidWorkspaceFolder env1 p = true ∧ ws1.uri <+: p ∧ p <+: dirname url1 ∧
        ∀ q : Path, ws1.uri <+: q → q <+: dirname url1 →
          isValidWorkspaceFolder env1 q = true → p <+: q) ∧
      getPackageFolder ctx2 env2 url2 = none := by
  constructor
  · have hmem : q1 ∈ (chain ws1.uri (dirname url1)).filter (isValidWorkspaceFolder env1) :=
      List.mem_filter.mpr ⟨(chain_mem ws1.uri (dirname url1) h13 q1).mpr ⟨h14, h15⟩, h16⟩
    have hne : (chain ws1.uri (dirname url1)).filter (isValidWorkspaceFolder env1) ≠ [] := by
      intro h0
      rw [h0] at hmem
      simp at hmem
    obtain ⟨p, hp⟩ := Option.isSome_iff_exists.mp (List.getLast?_isSome.mpr hne)
    have hpmem := List.mem_filter.mp (List.mem_of_getLast?_eq_some hp)
    have hchain := (chain_mem ws1.uri (dirname url1) h13 p).mp hpmem.1
    refine ⟨p, ?_, hpmem.2, hchain.1, hchain.2, ?_⟩
    · rw [getPackageFolder_search ctx1 env1 url1 ws1 h11 h12 h13, hp]
      rfl
    · intro q hq1 hq2 hq3
      have hqmem : q ∈ (chain ws1.uri (dirname url1)).filter (isValidWorkspaceFolder env1) :=
        List.mem_filter.mpr ⟨(chain_mem ws1.uri (dirname url1) h13 q).mpr ⟨hq1, hq2⟩, hq3⟩
      exact pairwise_getLast_ancestor
        ((chain ws1.uri (dirname url1)).filter (isValidWorkspaceFolder env1))
        ((chain_pairwise ws1.uri (dirname url1) h13).filter (isValidWorkspaceFolder env1))
        p hp q hqmem
  · rw [getPackageFolder_search ctx2 env2 url2 ws2 h21 h22 h23]
    have hempty :
        (chain ws2.uri (dirname url2)).filter (isValidWorkspaceFolder env2) = [] := by
      rw [List.filter_eq_nil_iff]
      intro q hq
      have hm := (chain_mem ws2.uri (dirname url2) h23 q).mp hq
      simp [h24 q hm.1 hm.2]
    rw [hempty]
    rfl

/-- Witness for C4: on the spec's §8 fixture, manifests in both
`ws/outer` and `ws/outer/inner` resolve `ws/outer/inner/main.swift` to
the outermost root `ws/outer`; with no manifest anywhere the search
returns nothing. -/
theorem claim4_witness :
    (∀ c ∈ c4ctx.folders, isPathInsidePath c4url c.folder = false) ∧
      c4env.getWorkspaceFolder c4url = some ⟨["ws"]⟩ ∧
      (⟨["ws"]⟩ : WorkspaceFolder).uri <+: dirname c4url ∧
      (⟨["ws"]⟩ : WorkspaceFolder).uri <+: ["ws", "outer"] ∧
      (["ws", "outer"] : Path) <+: dirname c4url ∧
      isValidWorkspaceFolder c4env ["ws", "outer"] = true ∧
      (∀ q : Path, (⟨["ws"]⟩ : WorkspaceFolder).uri <+: q → q <+: dirname c4url →
        isValidWorkspaceFolder c4envNone q = false) ∧
      ((∃ p : Path, getPackageFolder c4ctx c4env c4url = some (Sum.inr p) ∧
          isValidWorkspaceFolder c4env p = true ∧ (⟨["ws"]⟩ : WorkspaceFolder).uri <+: p ∧
          p <+: dirname c4url ∧
          ∀ q : Path, (⟨["ws"]⟩ : WorkspaceFolder).uri <+: q → q <+: dirname c4url →
            isValidWorkspaceFolder c4env q = true → p <+: q) ∧
        getPackageFolder c4ctx c4envNone c4url = none) :=
  ⟨by decide, rfl, ⟨["outer", "inner"], rfl⟩, ⟨["outer"], rfl⟩, ⟨["inner"], rfl⟩,
    by decide, fun q _ _ => rfl,
    claim4_outermost_manifest_wins c4ctx c4env c4url ⟨["ws"]⟩ ["ws", "outer"]
      c4ctx c4envNone c4url ⟨["ws"]⟩ (by decide) rfl ⟨["outer", "inner"], rfl⟩
      ⟨["outer"], rfl⟩ ⟨["inner"], rfl⟩ (by decide) (by decide) rfl
      ⟨["outer", "inner"], rfl⟩ (fun q _ _ => rfl)⟩

/-- `focusPackageUri` in the resolved case: after initialisation, a file
uri whose owning package directory is undiscovered but resolvable gets its
folder registered (appended to the sequence) and focused, while
`lastFocusUri` and the initialisation flag are untouched. -/
theorem focusPackageUri_resolves (env : HostEnv) (ctx : WorkspaceContext) (u : Uri)
    (q : Path) (wsf : WorkspaceFolder)
    (hInit : ctx.initialisationFinished = true)
    (hGet : getPackageFolder ctx env u.fsPath = some (Sum.inr q))
    (hW : env.getWorkspaceFolder q = some wsf)
    (hFind : ctx.folders.find? (fun c => decide (c.folder = q)) = none) :
    (focusPackageUri env ctx u).1.folders = ctx.folders ++ [⟨q, wsf⟩] ∧
      (focusPackageUri env ctx u).1.currentFolder = some (some ⟨q, wsf⟩) ∧
      (focusPackageUri env ctx u).1.lastFocusUri = ctx.lastFocusUri ∧
      (focusPackageUri env ctx u).1.initialisationFinished = ctx.initialisationFinished := by
  unfold focusPackageUri unfocusCurrentFolder addPackageFolder focusFolder
  simp only [hGet, hInit, hW, hFind]
  simp [fireEvent]

/-- C7: during initialisation at most one deferred focus request is kept —
a new undiscovered-package focus request overwrites whatever was
remembered, with no other state change and no event; when initialisation
completes, the remembered request, if any, is resolved (its folder is
registered and focused) and the remembered request is cleared — cleared in
every case. -/
theorem claim7_single_deferred_focus_request
    (envA : HostEnv) (ctxA : WorkspaceContext) (uriA : Uri) (pA : Path)
    (envB : HostEnv) (ctxB : WorkspaceContext) (uB : Uri) (qB : Path)
    (wsB : WorkspaceFolder) (envC : HostEnv) (ctxC : WorkspaceContext)
    (h1 : ctxA.initialisationFinished = false)
    (h2 : getPackageFolder ctxA envA uriA.fsPath = some (Sum.inr pA))
    (h3 : ctxB.lastFocusUri = some uB)
    (h4 : uB.scheme = "file")
    (h5 : getPackageFolder ctxB envB uB.fsPath = some (Sum.inr qB))
    (h6 : envB.getWorkspaceFolder qB = some wsB)
    (h7 : ∀ c ∈ ctxB.folders, c.folder ≠ qB) :
    focusPackageUri envA ctxA uriA = ({ ctxA with lastFocusUri := some uriA }, []) ∧
      (initialisationComplete envB ctxB).1.lastFocusUri = none ∧
      (initialisationComplete envB ctxB).1.folders = ctxB.folders ++ [⟨qB, wsB⟩] ∧
      (initialisationComplete envB ctxB).1.currentFolder = some (some ⟨qB, wsB⟩) ∧
      (initialisationComplete envB ctxB).1.initialisationFinished = true ∧
      (initialisationComplete envC ctxC).1.lastFocusUri = none := by
  have hFindB : ctxB.folders.find? (fun c => decide (c.folder = qB)) = none :=
    List.find?_eq_none.mpr (fun c hc => by simp [h7 c hc])
  have e1 : initialisationComplete envB ctxB =
      ({ (focusUri envB { ctxB with initialisationFinished := true } (some uB)).1 with
          lastFocusUri := none },
        (focusUri envB { ctxB with initialisationFinished := true } (some uB)).2) := by
    unfold initialisationComplete
    rw [show ({ ctxB with initialisationFinished := true } : WorkspaceContext).lastFocusUri =
        some uB from h3]
  have e2 : focusUri envB { ctxB with initialisationFinished := true } (some uB) =
      focusPackageUri envB
        { ctxB with currentDocument := some uB, initialisationFinished := true } uB := by
    simp [focusUri, h4]
  have hres := focusPackageUri_resolves envB
    { ctxB with currentDocument := some uB, initialisationFinished := true } uB qB wsB rfl
    ((getPackageFolder_eq_of_folders _ ctxB envB uB.fsPath rfl).trans h5) h6 hFindB
  refine ⟨?_, ?_, ?_, ?_, ?_, ?_⟩
  · unfold focusPackageUri
    simp only [h2]
    rw [if_pos h1]
  · rw [e1]
  · rw [e1]
    show (focusUri envB { ctxB with initialisationFinished := true } (some uB)).1.folders = _
    rw [e2]
    exact hres.1
  · rw [e1]
    show (focusUri envB { ctxB with initialisationFinished := true } (some uB)).1.currentFolder = _
    rw [e2]
    exact hres.2.1
  · rw [e1]
    show (focusUri envB
      { ctxB with initialisationFinished := true } (some uB)).1.initialisationFinished = _
    rw [e2]
    exact hres.2.2.2
  · cases hl : ctxC.lastFocusUri with
    | none => simp [initialisationComplete, hl]
    | some u => simp [initialisationComplete, hl]

/-- Evaluation of the discovery search on the C7 fixture: the file
`ws/pkg/main.swift` resolves to the undiscovered package directory
`ws/pkg`. -/
theorem c7discovery :
    getPackageFolder c7ctxA c7env c7uri.fsPath = some (Sum.inr ["ws", "pkg"]) := by
  simp [getPackageFolder, c7ctxA, c7env, c7uri, dirname, isValidWorkspaceFolder,
    searchLoop, isPathInsidePath]

/-- The same evaluation for `c7ctxB`, whose folder set agrees with
`c7ctxA`'s. -/
theorem c7discoveryB :
    getPackageFolder c7ctxB c7env c7uri.fsPath = some (Sum.inr ["ws", "pkg"]) :=
  (getPackageFolder_eq_of_folders c7ctxB c7ctxA c7env c7uri.fsPath rfl).trans c7discovery

/-- Witness for C7: during initialisation, focusing `c7uri` (whose
package directory `ws/pkg` is valid but unregistered) only records the
uri; completing initialisation on `c7ctxB` registers and focuses the
folder at `ws/pkg` and clears the remembered request. -/
theorem claim7_witness :
    c7ctxA.initialisationFinished = false ∧
      getPackageFolder c7ctxA c7env c7uri.fsPath = some (Sum.inr ["ws", "pkg"]) ∧
      c7ctxB.lastFocusUri = some c7uri ∧ c7uri.scheme = "file" ∧
      getPackageFolder c7ctxB c7env c7uri.fsPath = some (Sum.inr ["ws", "pkg"]) ∧
      c7env.getWorkspaceFolder ["ws", "pkg"] = some ⟨["ws"]⟩ ∧
      (∀ c ∈ c7ctxB.folders, c.folder ≠ ["ws", "pkg"]) ∧
      (focusPackageUri c7env c7ctxA c7uri = ({ c7ctxA with lastFocusUri := some c7uri }, []) ∧
        (initialisationComplete c7env c7ctxB).1.lastFocusUri = none ∧
        (initialisationComplete c7env c7ctxB).1.folders =
          c7ctxB.folders ++ [⟨["ws", "pkg"], ⟨["ws"]⟩⟩] ∧
        (initialisationComplete c7env c7ctxB).1.currentFolder =
          some (some ⟨["ws", "pkg"], ⟨["ws"]⟩⟩) ∧
        (initialisationComplete c7env c7ctxB).1.initialisationFinished = true ∧
        (initialisationComplete c7env c7ctxA).1.lastFocusUri = none) :=
  ⟨rfl, c7discovery, rfl, rfl, c7discoveryB, rfl, by decide,
    claim7_single_deferred_focus_request c7env c7ctxA c7uri ["ws", "pkg"] c7env c7ctxB
      c7uri ["ws", "pkg"] ⟨["ws"]⟩ c7env c7ctxA rfl c7discovery rfl rfl c7discoveryB rfl
      (by decide)⟩

/-- C8: resolving the build task for a folder applies, first match wins:
a matching user-declared workspace task marked default of the build
group; else a matching workspace task named exactly the generated task's
display name; else a previously generated `swift`-type task whose name
and working directory match; else the resolution fails with an error that
the (spec-modelled) caller absorbs by synthesizing a fresh build task. -/
theorem claim8_build_task_precedence
    (fetched1 swiftFetched1 : List VSTask) (fc1 : TaskFolderContext)
    (fetched2 swiftFetched2 : List VSTask) (fc2 : TaskFolderContext)
    (fetched3 swiftFetched3 : List VSTask) (fc3 : TaskFolderContext)
    (fetched4 swiftFetched4 : List VSTask) (fc4 : TaskFolderContext)
    (h1 : ∃ t ∈ fetched1, wsTaskMatches fc1 t = true ∧ isDefaultBuildTask t = true)
    (h2a : ∀ t ∈ fetched2, ¬(wsTaskMatches fc2 t = true ∧ isDefaultBuildTask t = true))
    (h2b : ∃ t ∈ fetched2, wsTaskMatches fc2 t = true ∧
      t.name = "swift: " ++ buildAllTaskName fc2)
    (h3a : ∀ t ∈ fetched3, ¬(wsTaskMatches fc3 t = true ∧ isDefaultBuildTask t = true))
    (h3b : ∀ t ∈ fetched3, ¬(wsTaskMatches fc3 t = true ∧
      t.name = "swift: " ++ buildAllTaskName fc3))
    (h3c : ∃ t ∈ swiftFetched3, swiftGenMatches fc3 t = true)
    (h4a : ∀ t ∈ fetched4, ¬(wsTaskMatches fc4 t = true ∧ isDefaultBuildTask t = true))
    (h4b : ∀ t ∈ fetched4, ¬(wsTaskMatches fc4 t = true ∧
      t.name = "swift: " ++ buildAllTaskName fc4))
    (h4c : ∀ t ∈ swiftFetched4, swiftGenMatches fc4 t = false) :
    (∃ t, getBuildAllTask fetched1 swiftFetched1 fc1 = Except.ok t ∧ t ∈ fetched1 ∧
        wsTaskMatches fc1 t = true ∧ isDefaultBuildTask t = true) ∧
      (∃ t, getBuildAllTask fetched2 swiftFetched2 fc2 = Except.ok t ∧ t ∈ fetched2 ∧
        wsTaskMatches fc2 t = true ∧ t.name = "swift: " ++ buildAllTaskName fc2) ∧
      (∃ t, getBuildAllTask fetched3 swiftFetched3 fc3 = Except.ok t ∧ t ∈ swiftFetched3 ∧
        swiftGenMatches fc3 t = true) ∧
      getBuildAllTask fetched4 swiftFetched4 fc4 =
        Except.error "Build All Task does not exist" ∧
      getBuildAllTaskOrCreate fetched4 swiftFetched4 fc4 = createBuildAllTask fc4 := by
  have find1 : ∀ (l : List VSTask) (fc : TaskFolderContext),
      (∀ t ∈ l, ¬(wsTaskMatches fc t = true ∧ isDefaultBuildTask t = true)) →
      (l.filter (wsTaskMatches fc)).find? isDefaultBuildTask = none := by
    intro l fc h
    refine List.find?_eq_none.mpr (fun t ht hd => ?_)
    have hm := List.mem_filter.mp ht
    exact h t hm.1 ⟨hm.2, hd⟩
  have find2 : ∀ (l : List VSTask) (fc : TaskFolderContext),
      (∀ t ∈ l, ¬(wsTaskMatches fc t = true ∧ t.name = "swift: " ++ buildAllTaskName fc)) →
      (l.filter (wsTaskMatches fc)).find?
        (fun t => decide (t.name = "swift: " ++ buildAllTaskName fc)) = none := by
    intro l fc h
    refine List.find?_eq_none.mpr (fun t ht hd => ?_)
    have hm := List.mem_filter.mp ht
    exact h t hm.1 ⟨hm.2, of_decide_eq_true hd⟩
  have find3 : swiftFetched4.find? (swiftGenMatches fc4) = none :=
    List.find?_eq_none.mpr (fun t ht => by simp [h4c t ht])
  refine ⟨?_, ?_, ?_, ?_, ?_⟩
  · obtain ⟨t, ht, hm, hd⟩ := h1
    have hsome : ((fetched1.filter (wsTaskMatches fc1)).find? isDefaultBuildTask).isSome :=
      List.find?_isSome.mpr ⟨t, List.mem_filter.mpr ⟨ht, hm⟩, hd⟩
    obtain ⟨t', ht'⟩ := Option.isSome_iff_exists.mp hsome
    have hmem := List.mem_filter.mp (List.mem_of_find?_eq_some ht')
    refine ⟨t', ?_, hmem.1, hmem.2, List.find?_some ht'⟩
    unfold getBuildAllTask
    simp only [ht']
  · obtain ⟨t, ht, hm, hn⟩ := h2b
    have hsome : ((fetched2.filter (wsTaskMatches fc2)).find?
        (fun t => decide (t.name = "swift: " ++ buildAllTaskName fc2))).isSome :=
      List.find?_isSome.mpr ⟨t, List.mem_filter.mpr ⟨ht, hm⟩, by simp [hn]⟩
    obtain ⟨t', ht'⟩ := Option.isSome_iff_exists.mp hsome
    have hmem := List.mem_filter.mp (List.mem_of_find?_eq_some ht')
    have hd0 := List.find?_some ht'
    have hd' : decide (t'.name = "swift: " ++ buildAllTaskName fc2) = true := hd0
    refine ⟨t', ?_, hmem.1, hmem.2, of_decide_eq_true hd'⟩
    unfold getBuildAllTask
    simp only [find1 fetched2 fc2 h2a, ht']
  · obtain ⟨t, ht, hm⟩ := h3c
    have hsome : (swiftFetched3.find? (swiftGenMatches fc3)).isSome :=
      List.find?_isSome.mpr ⟨t, ht, hm⟩
    obtain ⟨t', ht'⟩ := Option.isSome_iff_exists.mp hsome
    refine ⟨t', ?_, List.mem_of_find?_eq_some ht', List.find?_some ht'⟩
    unfold getBuildAllTask
    simp only [find1 fetched3 fc3 h3a, find2 fetched3 fc3 h3b, ht']
  · unfold getBuildAllTask
    simp only [find1 fetched4 fc4 h4a, find2 fetched4 fc4 h4b, find3]
  · unfold getBuildAllTaskOrCreate getBuildAllTask
    simp only [find1 fetched4 fc4 h4a, find2 fetched4 fc4 h4b, find3]

/-- Witness for C8: a default-marked workspace build task wins; a
workspace task named `swift: Build All` wins when no default exists; the
generated `swift`-type task is found when no workspace task matches; and
with no candidate at all resolution errors and the fallback synthesizes
the build task. -/
theorem claim8_witness :
    (∃ t ∈ [c8t1], wsTaskMatches c8fc t = true ∧ isDefaultBuildTask t = true) ∧
      (∀ t ∈ [c8t2], ¬(wsTaskMatches c8fc t = true ∧ isDefaultBuildTask t = true)) ∧
      (∃ t ∈ [c8t2], wsTaskMatches c8fc t = true ∧
        t.name = "swift: " ++ buildAllTaskName c8fc) ∧
      (∀ t ∈ ([] : List VSTask), ¬(wsTaskMatches c8fc t = true ∧ isDefaultBuildTask t = true)) ∧
      (∀ t ∈ ([] : List VSTask), ¬(wsTaskMatches c8fc t = true ∧
        t.name = "swift: " ++ buildAllTaskName c8fc)) ∧
      (∃ t ∈ [c8t3], swiftGenMatches c8fc t = true) ∧
      (∀ t ∈ ([] : List VSTask), swiftGenMatches c8fc t = false) ∧
      ((∃ t, getBuildAllTask [c8t1] [] c8fc = Except.ok t ∧ t ∈ [c8t1] ∧
          wsTaskMatches c8fc t = true ∧ isDefaultBuildTask t = true) ∧
        (∃ t, getBuildAllTask [c8t2] [] c8fc = Except.ok t ∧ t ∈ [c8t2] ∧
          wsTaskMatches c8fc t = true ∧ t.name = "swift: " ++ buildAllTaskName c8fc) ∧
        (∃ t, getBuildAllTask [] [c8t3] c8fc = Except.ok t ∧ t ∈ [c8t3] ∧
          swiftGenMatches c8fc t = true) ∧
        getBuildAllTask [] [] c8fc = Except.error "Build All Task does not exist" ∧
        getBuildAllTaskOrCreate [] [] c8fc = createBuildAllTask c8fc) :=
  ⟨by decide, by decide, by decide, by decide, by decide, by decide, by decide,
    claim8_build_task_precedence [c8t1] [] c8fc [c8t2] [] c8fc [] [c8t3] c8fc [] [] c8fc
      (by decide) (by decide) (by decide) (by decide) (by decide) (by decide) (by decide)
      (by decide) (by decide)⟩

/-- Witness for C3: starting from the one-folder context `c3ctx` and
running `c3ops` (a duplicate add then a removal) the roots stay
duplicate-free, and re-adding `c3fc`'s root returns it unchanged with no
event. -/
theorem claim3_witness :
    (folderRoots c3ctx).Nodup ∧ (∃ c ∈ c3ctx.folders, c.folder = ["ws", "pkg"]) ∧
      ((folderRoots (applyOps c3ctx c3ops)).Nodup ∧
        (addPackageFolder c3ctx ["ws", "pkg"] ⟨["ws"]⟩).1 = c3ctx ∧
        (addPackageFolder c3ctx ["ws", "pkg"] ⟨["ws"]⟩).2.2 = [] ∧
        (addPackageFolder c3ctx ["ws", "pkg"] ⟨["ws"]⟩).2.1 ∈ c3ctx.folders ∧
        (addPackageFolder c3ctx ["ws", "pkg"] ⟨["ws"]⟩).2.1.folder = ["ws", "pkg"]) :=
  ⟨by decide, by decide,
    claim3_no_duplicate_roots c3ctx c3ops ["ws", "pkg"] ⟨["ws"]⟩ (by decide) (by decide)⟩

end VSCodeSwift
